import Mathlib

/-!
Shallow embedding of the ledger-reconciliation core of `telegram_bot.py`:
the Google-Sheets helper functions, the registration / edit / delete
message handlers and the `/domany` batch orchestrator.

Modelling conventions:
* Sheet cells are strings — the remote tabular store renders every cell
  as text, so integer values appended by the source (message ids, topic
  ids, channel ids, chat ids) are stored via `toString`.
* External network calls (channel/topic creation, channel updates, the
  cell write inside `update_topic_id`, downloads, renders, uploads) are
  modelled as oracle parameters recording whether the call succeeds;
  remote writes that the source performs with no surrounding
  `try/except` are modelled on their success path.
* Python dynamic typing matters in one place: `check_video_exist` is
  called with the *integer* event id and compares it against *string*
  sheet cells; in Python `str == int` is `False` with no coercion, which
  the embedding records explicitly in `pyEqStrInt`.
-/

namespace TelegramBot

/-- Structural model of Python `str.lower()` as used on the incoming
captions: lower-case each character (`Char.toLower` agrees with Python on
the ASCII captions these handlers receive). -/
def pyLower (s : String) : String := ⟨s.data.map Char.toLower⟩

/-- Python equality between a `str` sheet cell and an `int` value: always
`False`, because Python does not coerce between the two types.  Used by
`check_video_exist`, which receives the raw integer `message_id` (the
source omits the `str(...)` conversion that all its sibling lookups
perform). -/
def pyEqStrInt (_cell : String) (_n : Int) : Bool := false

/-- One data row of the `list_image` worksheet, columns A..F:
`[assetId, displayName, outputChatId, topicId, priorDisplayName, channelId]`.
Legacy rows lacking column F are read back as empty string by the source
(`data[i][5] if len(data[i]) > 5 else ""`), so a fixed six-column row with
`channelId = ""` represents them. -/
structure ImgRow where
  id : String
  name : String
  chatId : String
  topicId : String
  oldName : String
  channelId : String
deriving DecidableEq

/-- One data row of `list_video`: `(assetId, displayName)`. -/
abbrev VidRow := String × String

/-- One data row of `list_output`: `(outputKey, combinationLabel)`. -/
abbrev OutRow := String × String

/-- The constant `entity_map["output_chat_id"]["id"]` used by
`get_entity_id("output_chat_id")`. -/
def output_chat_id_const : Int := 2326968720

/-- Embeds `check_video_exist(video_id, data)`: scan `list_video` rows,
return `(True, row[1])` on the first row with `row[0] == video_id`.  The
caller passes the integer `message_id`, so the comparison is the Python
`str == int` test `pyEqStrInt`. -/
def check_video_exist (video_id : Int) : List VidRow → Bool × Option String
  | [] => (false, none)
  | r :: rest =>
    if pyEqStrInt r.1 video_id then (true, some r.2)
    else check_video_exist video_id rest

/-- Embeds `check_output_exist(output_id, data)`: first row of
`list_output` whose key cell equals `output_id` (both strings here). -/
def check_output_exist (output_id : String) : List OutRow → Bool × Option String
  | [] => (false, none)
  | r :: rest =>
    if r.1 == output_id then (true, some r.2)
    else check_output_exist output_id rest

/-- Embeds `check_topic_exist(image_name, data)`: first `list_image` row
with `row[1] == image_name` and `row[3] != ""`; returns `(True, row[4])`. -/
def check_topic_exist (image_name : String) : List ImgRow → Bool × Option String
  | [] => (false, none)
  | r :: rest =>
    if r.name == image_name && r.topicId != "" then (true, some r.oldName)
    else check_topic_exist image_name rest

/-- Index-tracking scan used by `check_image_by_message_id`. -/
def find_image_row (target : String) : Nat → List ImgRow → Option (Nat × ImgRow)
  | _, [] => none
  | i, r :: rest =>
    if r.id == target then some (i, r)
    else find_image_row target (i + 1) rest

/-- Embeds `check_image_by_message_id(message_id, data)`: first row with
`row[0] == str(message_id)`; the source returns the row index together
with the row's cells, modelled as the pair `(index, row)`. -/
def check_image_by_message_id (message_id : Int) (data : List ImgRow) :
    Option (Nat × ImgRow) :=
  find_image_row (toString message_id) 0 data

/-- Embeds `update_topic_id(image_id, image_name, data)`: rewrite cell
`A{i+2}` (the `assetId` cell) of the first row whose `displayName` equals
`image_name` to `image_id`, returning `True`; if that single cell write
raises (`writeOk = false`) return `False`; if no row matches, fall through
the loop and return `True` with no write. -/
def update_topic_id (image_id : Int) (image_name : String) (writeOk : Bool) :
    List ImgRow → List ImgRow × Bool
  | [] => ([], true)
  | r :: rest =>
    if r.name == image_name then
      if writeOk then ({ r with id := toString image_id } :: rest, true)
      else (r :: rest, false)
    else
      let res := update_topic_id image_id image_name writeOk rest
      (r :: res.1, res.2)

/-- Specification-side description used to state the amended claim C5:
rewrite the `assetId` cell of the first row whose `displayName` equals
`nm`, leaving every other row and the row count unchanged. -/
def rewriteFirstIdByName (nm newId : String) : List ImgRow → List ImgRow
  | [] => []
  | r :: rest =>
    if r.name == nm then { r with id := newId } :: rest
    else r :: rewriteFirstIdByName nm newId rest

/-- Embeds `delete_image_by_message_id(message_id)`: delete the first
`list_image` row with `row[0] == str(message_id)` and return
`(True, row[1])`; `(False, None)` when no row matches. -/
def delete_image_by_message_id (message_id : Int) :
    List ImgRow → List ImgRow × Bool × Option String
  | [] => ([], false, none)
  | r :: rest =>
    if r.id == toString message_id then (rest, true, some r.name)
    else
      let res := delete_image_by_message_id message_id rest
      (r :: res.1, res.2.1, res.2.2)

/-- Embeds `delete_video_by_message_id(message_id)`: same scheme on
`list_video`. -/
def delete_video_by_message_id (message_id : Int) :
    List VidRow → List VidRow × Bool × Option String
  | [] => ([], false, none)
  | r :: rest =>
    if r.1 == toString message_id then (rest, true, some r.2)
    else
      let res := delete_video_by_message_id message_id rest
      (r :: res.1, res.2.1, res.2.2)

/-- Loop body of `delete_outputs_by_image_id`: `for i in
range(len(data)-1, -1, -1)` over the single snapshot `data`, deleting
sheet row `i+2` (position `i` of the live sheet) whenever
`data[i][0].startswith(prefix)`.  `delete_outputs_aux data pre i sheet`
runs the iterations for indices `i-1, i-2, ..., 0` against the live
`sheet`, returning the final sheet, the deletion count and the deleted
labels in loop (descending-index) order. -/
def delete_outputs_aux (data : List OutRow) (pre : String) :
    Nat → List OutRow → List OutRow × Nat × List String
  | 0, sheet => (sheet, 0, [])
  | i + 1, sheet =>
    match data[i]? with
    | some row =>
      if row.1.startsWith pre then
        let res := delete_outputs_aux data pre i (sheet.eraseIdx i)
        (res.1, res.2.1 + 1, row.2 :: res.2.2)
      else delete_outputs_aux data pre i sheet
    | none => delete_outputs_aux data pre i sheet

/-- Embeds `delete_outputs_by_image_id(image_id)`: fetch the outputs
table once, then scan it in reverse row order deleting every row whose
key starts with `f"{image_id}_"`.  Callers pass the id already rendered
as text (the f-string formatting). -/
def delete_outputs_by_image_id (image_id : String) (sheet : List OutRow) :
    List OutRow × Nat × List String :=
  delete_outputs_aux sheet (image_id ++ "_") sheet.length sheet

/-- Oracles for the external calls made by `handle_image_has_text`:
whether `update_channel_info` succeeds, the result of
`create_forum_topic` (`None` on failure), the result of
`create_separate_chat` (`None` on failure), and whether the cell write
inside `update_topic_id` succeeds. -/
structure ImgOracles where
  updateChannelOk : Bool
  topicResult : Option Int
  channelResult : Option Int
  topicWriteOk : Bool
deriving DecidableEq

/-- The user-visible reply produced by `handle_image_has_text`
(`topicFailed` is the no-reply branch where only a log line is made). -/
inductive ImgReply
  | renamed (oldName newName : String)
  | photoUpdated (name : String)
  | updateFailed (oldName : String)
  | noChannel (oldName : String)
  | topicExists (name : String)
  | created (name : String)
  | createdChannelFailed (name : String)
  | topicFailed
deriving DecidableEq

/-- Embeds `handle_image_has_text(event)` acting on the `list_image`
table.  Path order follows the source: (1) the message id already has a
row — edit path: update the external channel (title skipped inside
`update_channel_info` when the name is unchanged), then on success
rewrite cells B and E of that row to the new text; (2) a row with the
same name and a nonempty topic id exists — collision path: reply and run
`update_topic_id` (its boolean result is ignored by the source);
(3) brand-new name — create topic and channel concurrently, and append
one row only when the topic id is not `None`, with `channel_id or ""`
in column F. -/
def handle_image_has_text (o : ImgOracles) (message_id : Int) (rawText : String)
    (table : List ImgRow) : List ImgRow × ImgReply :=
  let message_text := pyLower rawText
  match check_image_by_message_id message_id table with
  | some (i, r) =>
    if r.channelId != "" then
      if o.updateChannelOk then
        (table.set i { r with name := message_text, oldName := message_text },
         if r.name != message_text then ImgReply.renamed r.name message_text
         else ImgReply.photoUpdated message_text)
      else (table, ImgReply.updateFailed r.name)
    else (table, ImgReply.noChannel r.name)
  | none =>
    let ex := check_topic_exist message_text table
    if ex.1 then
      ((update_topic_id message_id message_text o.topicWriteOk table).1,
       ImgReply.topicExists (ex.2.getD ""))
    else
      match o.topicResult with
      | some tid =>
        (table ++ [⟨toString message_id, message_text,
                    toString output_chat_id_const, toString tid, message_text,
                    match o.channelResult with
                    | some c => toString c
                    | none => ""⟩],
         match o.channelResult with
         | some _ => ImgReply.created message_text
         | none => ImgReply.createdChannelFailed message_text)
      | none => (table, ImgReply.topicFailed)

/-- The user-visible reply produced by `handle_input_video_has_text`. -/
inductive VidReply
  | alreadyExists (name : String)
  | added (name : String)
deriving DecidableEq

/-- Embeds `handle_input_video_has_text(event)` acting on `list_video`:
lower-case the caption, run `check_video_exist(message_id)` (the dead
`str == int` comparison), and either reply "already exist" with no
mutation or append `[message_id, message_text]`. -/
def handle_input_video_has_text (message_id : Int) (rawText : String)
    (table : List VidRow) : List VidRow × VidReply :=
  let message_text := pyLower rawText
  let ve := check_video_exist message_id table
  if ve.1 then (table, VidReply.alreadyExists (ve.2.getD ""))
  else (table ++ [(toString message_id, message_text)], VidReply.added message_text)

/-- The three worksheets of the ledger. -/
structure SheetState where
  images : List ImgRow
  videos : List VidRow
  outputs : List OutRow
deriving DecidableEq

/-- Embeds `handle_message_deleted(event)`: for each deleted id, try the
image table first (cascading the outputs on success and skipping the
video table via `continue`), then the video table, else log not-found.
Returns the final ledger and `deleted_count`. -/
def handle_message_deleted (ids : List Int) (st : SheetState) : SheetState × Nat :=
  match ids with
  | [] => (st, 0)
  | m :: rest =>
    let di := delete_image_by_message_id m st.images
    if di.2.1 then
      let dout := delete_outputs_by_image_id (toString m) st.outputs
      let res := handle_message_deleted rest ⟨di.1, st.videos, dout.1⟩
      (res.1, res.2 + 1)
    else
      let dv := delete_video_by_message_id m st.videos
      if dv.2.1 then
        let res := handle_message_deleted rest ⟨st.images, dv.1, st.outputs⟩
        (res.1, res.2 + 1)
      else handle_message_deleted rest st

/-- Embeds the lookup semantics of `create_map_user_image()`: the dict is
built keyed on `row[1]` keeping the *first* occurrence of each name
(`if i[1] not in map_user_image`), so a lookup yields the `message_id`
cell of the first row with that display name. -/
def image_map_lookup (imgs : List ImgRow) (name : String) : Option String :=
  (imgs.find? (fun r => r.name == name)).map (fun r => r.id)

/-- Embeds the lookup semantics of `create_map_video()`: the dict entry
for a name is overwritten by every row, so a lookup yields the
`message_id` cell of the *last* row with that display name. -/
def video_map_lookup (vids : List VidRow) (name : String) : Option String :=
  ((vids.filter (fun r => r.2 == name)).getLast?).map (fun r => r.1)

/-- The iteration order of `domany`: outer loop over image names, inner
loop over video names. -/
def comboList : List String → List String → List (String × String)
  | [], _ => []
  | a :: rest, bs => bs.map (fun b => (a, b)) ++ comboList rest bs

/-- Aggregate state of one `domany` run: the live outputs table, the
`success`/`skip` counters, the number of combinations that passed the
existence check into the download/render stage, the `fail_list`, and — if
a map lookup raised an uncaught `KeyError` (the subscripts at the top of
the loop body sit *outside* the `try`) — the combination label at which
the whole batch aborted. -/
structure BatchState where
  outputs : List OutRow
  success : Nat
  skip : Nat
  renders : Nat
  failList : List String
  aborted : Option String
deriving DecidableEq

/-- Loop body of `domany` over the remaining combinations.  `snap` is the
single `get_data("list_output")` snapshot taken before the loop; the
existence check always consults `snap`, never the live table.  The oracle
`ok` tells whether the external work inside the `try` block (download,
render, upload, append) succeeds for a combination; on failure the
`except` arm records the label in `fail_list` and the loop continues.  A
failed name lookup returns immediately with `aborted` set, since the
`KeyError` is raised before the `try` and nothing catches it. -/
def runCombos (imgs : List ImgRow) (vids : List VidRow) (snap : List OutRow)
    (ok : String → Bool) : List (String × String) → BatchState → BatchState
  | [], st => st
  | (a, b) :: rest, st =>
    let combo := a ++ "_" ++ b
    match image_map_lookup imgs a, video_map_lookup vids b with
    | some ia, some ib =>
      let key := ia ++ "_" ++ ib
      if (check_output_exist key snap).1 then
        runCombos imgs vids snap ok rest { st with skip := st.skip + 1 }
      else if ok combo then
        runCombos imgs vids snap ok rest
          { st with outputs := st.outputs ++ [(key, combo)],
                    success := st.success + 1,
                    renders := st.renders + 1 }
      else
        runCombos imgs vids snap ok rest
          { st with failList := st.failList ++ [combo],
                    renders := st.renders + 1 }
    | _, _ => { st with aborted := some combo }

/-- Embeds `domany(event)` for the given name lists: build the image and
video maps, snapshot `list_output` once, and run the nested loops. -/
def domany (imgs : List ImgRow) (vids : List VidRow)
    (image_names video_names : List String) (outputs : List OutRow)
    (ok : String → Bool) : BatchState :=
  runCombos imgs vids outputs ok (comboList image_names video_names)
    ⟨outputs, 0, 0, 0, [], none⟩

/-- External mutations issued by `update_channel_info`. -/
inductive ChanCall
  | editTitle (title : String)
  | editPhoto
deriving DecidableEq

/-- Embeds `update_channel_info(channel_id, new_name, new_photo_message,
old_name)` on its non-exception path: emit `EditTitleRequest(new_name)`
unless `old_name` is present and equal to `new_name`; emit
`EditPhotoRequest` exactly when a new photo is supplied; return `True`
in every non-exception case (including when nothing changed). -/
def update_channel_info (new_name : String) (old_name : Option String)
    (hasNewPhoto : Bool) : List ChanCall × Bool :=
  let titleCalls :=
    match old_name with
    | none => [ChanCall.editTitle new_name]
    | some o => if new_name != o then [ChanCall.editTitle new_name] else []
  let photoCalls := if hasNewPhoto then [ChanCall.editPhoto] else []
  (titleCalls ++ photoCalls, true)

/-- Fixture row used by concrete witnesses: an image "alicia" registered
under assetId 200. -/
def aliciaRow : ImgRow := ⟨"200", "alicia", "2326968720", "6", "alicia", "888"⟩

/-- Fixture row used by concrete witnesses: an image "a" registered under
assetId 1. -/
def sampleImgRow : ImgRow := ⟨"1", "a", "2326968720", "4", "a", "8"⟩

/-- Fixture table used by the C2 witness: images "a" (id 7) and "b"
(id 8). -/
def c2imgs : List ImgRow :=
  [⟨"7", "a", "2326968720", "4", "a", "9"⟩,
   ⟨"8", "b", "2326968720", "5", "b", "6"⟩]

/-- Fixture outputs table used by the C2 witness: two outputs of image 7
around one output of image 8. -/
def c2outs : List OutRow := [("7_1", "a_v1"), ("8_1", "b_v1"), ("7_2", "a_v2")]

end TelegramBot

namespace TelegramBot

/-- The dead duplicate check: `check_video_exist` never finds a row, for
any id and any table, because the `str == int` comparison is `False`. -/
theorem check_video_exist_eq_false (video_id : Int) (l : List VidRow) :
    check_video_exist video_id l = (false, none) := by
  induction l with
  | nil => rfl
  | cons r rest ih => simpa [check_video_exist, pyEqStrInt] using ih

/-- C1: the claim says registering twice with the same assetId and the
same caption is a no-op on the ledger.  The code violates this for
videos: `check_video_exist` compares the integer event id with the
string sheet cell, which is always `False` in Python, so the second
registration of video id 7 with caption "v" appends a second identical
row instead of being rejected.  (The image path converts with
`str(message_id)` and is unaffected.) -/
theorem C1_video_reregistration_appends_duplicate_row :
    (handle_input_video_has_text 7 "v" []).1 = [("7", "v")] ∧
    handle_input_video_has_text 7 "v" [("7", "v")] =
      ([("7", "v"), ("7", "v")], VidReply.added "v") := by
  decide

/-- C4: the claim says a missing name fails only that combination and the
batch continues, giving 1 success and failure list ["alice_v2"] in the
scenario.  The code performs the map subscripts *before* the `try`
block, so the missing video "v2" raises an uncaught `KeyError` that
aborts the whole batch: the run ends after 1 success with an *empty*
failure list and the `aborted` marker set at alice_v2, and no final
summary is produced. -/
theorem C4_missing_video_name_aborts_batch :
    domany [⟨"10", "alice", "2326968720", "4", "alice", "8"⟩] [("20", "v1")]
        ["alice"] ["v1", "v2"] [] (fun _ => true) =
      ⟨[("10_20", "alice_v1")], 1, 0, 1, [], some "alice_v2"⟩ := by
  decide

/-- C5 counterexample: renaming image "alice" (assetId 100) to "alicia"
while a row "alicia" already exists under assetId 200.  Because the
handler looks up the assetId first, the event takes the edit path: row
100's own name cells are rewritten to "alicia", row 200 keeps assetId
"200" (it is *not* rewritten to "100"), the reply is the rename reply
rather than "topic already exists, reused", and the table ends with two
rows named "alicia". -/
theorem C5_rename_onto_existing_name_counterexample :
    handle_image_has_text ⟨true, none, none, true⟩ 100 "alicia"
        [⟨"100", "alice", "2326968720", "5", "alice", "999"⟩,
         ⟨"200", "alicia", "2326968720", "6", "alicia", "888"⟩] =
      ([⟨"100", "alicia", "2326968720", "5", "alicia", "999"⟩,
        ⟨"200", "alicia", "2326968720", "6", "alicia", "888"⟩],
       ImgReply.renamed "alice" "alicia") := by
  decide

/-- C6 counterexample: for a brand-new name, when topic creation fails
(`topicResult = none`) while channel creation succeeds (id 777), the
claim predicts a row appended with an empty topic identifier; the code
appends nothing at all — the `append_row` sits under
`if topic_id is not None`. -/
theorem C6_topic_failure_drops_append_counterexample :
    handle_image_has_text ⟨true, none, some 777, true⟩ 1 "newface" [] =
      ([], ImgReply.topicFailed) := by
  decide

/-- C7 counterexample: registering video id 2 with caption "v" while row
("1", "v") already carries that display name.  The claim predicts a
rejection with no mutation; the code appends a second row named "v",
because its duplicate check looks at the assetId column (and never
matches at all due to the `str == int` comparison). -/
theorem C7_video_name_collision_not_rejected_counterexample :
    handle_input_video_has_text 2 "v" [("1", "v")] =
      ([("1", "v"), ("2", "v")], VidReply.added "v") := by
  decide

/-- C7 (amended): video registration performs no displayName-based
deduplication at all.  Its check compares the stored assetId cell (a
string) with the integer event id, which never matches, so every
registration event appends exactly one `[assetId, displayName]` row and
is never rejected, whatever the table contains. -/
theorem C7_video_registration_always_appends (message_id : Int)
    (rawText : String) (table : List VidRow) :
    handle_input_video_has_text message_id rawText table =
      (table ++ [(toString message_id, pyLower rawText)],
       VidReply.added (pyLower rawText)) := by
  simp [handle_input_video_has_text, check_video_exist_eq_false]

/-- C8: in `update_channel_info` the title mutation is issued exactly
when the new name differs from the stored previous name (or no previous
name was supplied), and the avatar mutation is issued exactly when a new
photo is supplied, independently of the title decision. -/
theorem C8_title_skip_and_avatar_independent (newName : String)
    (oldName : Option String) (hasPhoto : Bool) :
    (ChanCall.editTitle newName ∈ (update_channel_info newName oldName hasPhoto).1
        ↔ ¬ oldName = some newName) ∧
    (ChanCall.editPhoto ∈ (update_channel_info newName oldName hasPhoto).1
        ↔ hasPhoto = true) := by
  rcases oldName with _ | o
  · cases hasPhoto <;> simp [update_channel_info]
  · by_cases h : newName = o
    · subst h
      cases hasPhoto <;> simp [update_channel_info]
    · have h' : ¬ o = newName := fun e => h e.symm
      have hb : (newName != o) = true := by simp [bne_iff_ne, h]
      cases hasPhoto <;> simp [update_channel_info, hb, h']

/-- The scan behind `check_image_by_message_id` finds nothing when no row
carries the target id, whatever the running index. -/
theorem find_image_row_eq_none (target : String) (k : Nat) (l : List ImgRow)
    (h : ∀ r ∈ l, ¬ r.id = target) : find_image_row target k l = none := by
  induction l generalizing k with
  | nil => rfl
  | cons r rest ih =>
    have hr : ¬ r.id = target := h r (by simp)
    simpa [find_image_row, hr] using ih (k + 1) fun x hx => h x (by simp [hx])

/-- An id absent from every row is not found by
`check_image_by_message_id`. -/
theorem check_image_by_message_id_eq_none (message_id : Int) (data : List ImgRow)
    (h : ∀ r ∈ data, ¬ r.id = toString message_id) :
    check_image_by_message_id message_id data = none :=
  find_image_row_eq_none _ 0 data h

/-- With no matching display name, `update_topic_id` writes nothing and
returns `True`. -/
theorem update_topic_id_no_match (image_id : Int) (image_name : String)
    (writeOk : Bool) (data : List ImgRow)
    (h : ∀ r ∈ data, ¬ r.name = image_name) :
    update_topic_id image_id image_name writeOk data = (data, true) := by
  induction data with
  | nil => rfl
  | cons r rest ih =>
    have hr : ¬ r.name = image_name := h r (by simp)
    have ih' := ih fun x hx => h x (by simp [hx])
    simp [update_topic_id, hr, ih']

/-- A `False` return from `update_topic_id` can only come from a failed
cell write on a matched row. -/
theorem update_topic_id_snd_false (image_id : Int) (image_name : String)
    (writeOk : Bool) (data : List ImgRow)
    (h : (update_topic_id image_id image_name writeOk data).2 = false) :
    writeOk = false ∧ ∃ r ∈ data, r.name = image_name := by
  induction data with
  | nil => simp [update_topic_id] at h
  | cons r rest ih =>
    by_cases hn : r.name = image_name
    · cases hw : writeOk
      · exact ⟨rfl, r, by simp, hn⟩
      · simp [update_topic_id, hn, hw] at h
    · simp [update_topic_id, hn] at h
      obtain ⟨hw, x, hx, hxn⟩ := ih h
      exact ⟨hw, x, by simp [hx], hxn⟩

/-- On the success path, `update_topic_id` rewrites exactly the assetId
cell of the first row with the requested name. -/
theorem update_topic_id_fst_writeOk (image_id : Int) (nm : String)
    (data : List ImgRow) :
    (update_topic_id image_id nm true data).1 =
      rewriteFirstIdByName nm (toString image_id) data := by
  induction data with
  | nil => rfl
  | cons r rest ih =>
    by_cases hn : r.name = nm
    · simp [update_topic_id, rewriteFirstIdByName, hn]
    · simp [update_topic_id, rewriteFirstIdByName, hn, ih]

/-- Rewriting the first matching row's id preserves the row count. -/
theorem rewriteFirstIdByName_length (nm v : String) (l : List ImgRow) :
    (rewriteFirstIdByName nm v l).length = l.length := by
  induction l with
  | nil => rfl
  | cons r rest ih =>
    by_cases hn : r.name = nm <;> simp [rewriteFirstIdByName, hn, ih]

/-- C10: `update_topic_id` reports success even when nothing matched —
with no row carrying the requested name it writes no cell and still
returns `True`; `False` arises only when the cell write itself raises
on a matched row; and the caller's collision branch reports the id as
updated (the `topicExists` reply) regardless of the write outcome,
since it ignores the returned boolean. -/
theorem C10_update_topic_id_vacuous_success (image_id : Int)
    (image_name : String) (writeOk : Bool) (data : List ImgRow) :
    ((∀ r ∈ data, ¬ r.name = image_name) →
      update_topic_id image_id image_name writeOk data = (data, true)) ∧
    ((update_topic_id image_id image_name writeOk data).2 = false →
      writeOk = false ∧ ∃ r ∈ data, r.name = image_name) ∧
    (∀ (uOk : Bool) (tRes cRes : Option Int) (rawText : String)
        (table : List ImgRow),
      (∀ r ∈ table, ¬ r.id = toString image_id) →
      (check_topic_exist (pyLower rawText) table).1 = true →
      (handle_image_has_text ⟨uOk, tRes, cRes, writeOk⟩ image_id rawText table).2
        = ImgReply.topicExists
            ((check_topic_exist (pyLower rawText) table).2.getD "")) := by
  refine ⟨update_topic_id_no_match image_id image_name writeOk data,
          update_topic_id_snd_false image_id image_name writeOk data,
          ?_⟩
  intro uOk tRes cRes rawText table hid hex
  have hnone := check_image_by_message_id_eq_none image_id table hid
  simp [handle_image_has_text, hnone, hex]

/-- C10 witness: `update_topic_id` on a table with no row named "zed"
returns the table unchanged together with `True`. -/
theorem C10_update_topic_id_vacuous_success_witness :
    update_topic_id 5 "zed" true [sampleImgRow] = ([sampleImgRow], true) :=
  (C10_update_topic_id_vacuous_success 5 "zed" true [sampleImgRow]).1
    (by decide)

/-- A deletion id absent from every image row leaves `list_image`
untouched and reports not-found. -/
theorem delete_image_by_message_id_no_match (m : Int) (l : List ImgRow)
    (h : ∀ r ∈ l, ¬ r.id = toString m) :
    delete_image_by_message_id m l = (l, false, none) := by
  induction l with
  | nil => rfl
  | cons r rest ih =>
    have hr : ¬ r.id = toString m := h r (by simp)
    have ih' := ih fun x hx => h x (by simp [hx])
    simp [delete_image_by_message_id, hr, ih']

/-- A deletion id absent from every video row leaves `list_video`
untouched and reports not-found. -/
theorem delete_video_by_message_id_no_match (m : Int) (l : List VidRow)
    (h : ∀ r ∈ l, ¬ r.1 = toString m) :
    delete_video_by_message_id m l = (l, false, none) := by
  induction l with
  | nil => rfl
  | cons r rest ih =>
    have hr : ¬ r.1 = toString m := h r (by simp)
    have ih' := ih fun x hx => h x (by simp [hx])
    simp [delete_video_by_message_id, hr, ih']

/-- C9: a deletion event whose id matches no row in `list_image` and no
row in `list_video` leaves the whole ledger unchanged and counts zero
processed deletions (the handler only logs not-found; every helper
catches its own exceptions, and the model is a total function). -/
theorem C9_unmatched_deletion_is_noop (m : Int) (st : SheetState)
    (h1 : ∀ r ∈ st.images, ¬ r.id = toString m)
    (h2 : ∀ r ∈ st.videos, ¬ r.1 = toString m) :
    handle_message_deleted [m] st = (st, 0) := by
  simp [handle_message_deleted,
        delete_image_by_message_id_no_match m st.images h1,
        delete_video_by_message_id_no_match m st.videos h2]

/-- C9 witness: deleting message id 555, which matches nothing, is a
no-op on a populated ledger. -/
theorem C9_unmatched_deletion_is_noop_witness :
    handle_message_deleted [555]
        ⟨[sampleImgRow], [("2", "v")], [("1_2", "a_v")]⟩ =
      (⟨[sampleImgRow], [("2", "v")], [("1_2", "a_v")]⟩, 0) :=
  C9_unmatched_deletion_is_noop 555
    ⟨[sampleImgRow], [("2", "v")], [("1_2", "a_v")]⟩ (by decide) (by decide)

/-- C5 (amended): the collision rewrite happens only for an assetId that
is not yet present in `list_image`.  For such an event whose
lower-cased caption matches an existing row with a nonempty topicId,
no new row is appended (the row count is preserved); the first row with
that name has its assetId cell rewritten to the new id, and the handler
replies that the topic already exists and the id was updated.  (An edit
of an assetId that *is* present takes the rename path instead, as the
counterexample shows.) -/
theorem C5_collision_rewrites_existing_row (message_id : Int)
    (rawText : String) (table : List ImgRow) (uOk : Bool)
    (tRes cRes : Option Int)
    (hid : ∀ r ∈ table, ¬ r.id = toString message_id)
    (hex : (check_topic_exist (pyLower rawText) table).1 = true) :
    handle_image_has_text ⟨uOk, tRes, cRes, true⟩ message_id rawText table =
      (rewriteFirstIdByName (pyLower rawText) (toString message_id) table,
       ImgReply.topicExists
         ((check_topic_exist (pyLower rawText) table).2.getD "")) ∧
    (handle_image_has_text ⟨uOk, tRes, cRes, true⟩ message_id rawText table).1.length
      = table.length := by
  have hnone := check_image_by_message_id_eq_none message_id table hid
  have hmain :
      handle_image_has_text ⟨uOk, tRes, cRes, true⟩ message_id rawText table =
        (rewriteFirstIdByName (pyLower rawText) (toString message_id) table,
         ImgReply.topicExists
           ((check_topic_exist (pyLower rawText) table).2.getD "")) := by
    simp [handle_image_has_text, hnone, hex, update_topic_id_fst_writeOk]
  exact ⟨hmain, by rw [hmain]; exact rewriteFirstIdByName_length _ _ table⟩

/-- C5 witness: a registration under fresh assetId 100 whose caption
"alicia" collides with the row stored under assetId 200 rewrites that
row's id and appends nothing. -/
theorem C5_collision_rewrites_existing_row_witness :
    handle_image_has_text ⟨true, none, none, true⟩ 100 "alicia" [aliciaRow] =
      (rewriteFirstIdByName (pyLower "alicia") (toString (100 : Int)) [aliciaRow],
       ImgReply.topicExists
         ((check_topic_exist (pyLower "alicia") [aliciaRow]).2.getD "")) ∧
    (handle_image_has_text ⟨true, none, none, true⟩ 100 "alicia" [aliciaRow]).1.length
      = [aliciaRow].length :=
  C5_collision_rewrites_existing_row 100 "alicia" [aliciaRow] true none none
    (by decide) (by decide)

/-- C6 (amended): for a brand-new name the two provisioning steps are
only half independent.  If the topic succeeds, the row is appended
whatever happened to the channel, with the empty string standing in for
a failed channel id; but if the topic fails, no row is appended at all
(the channel, though created, is simply logged). -/
theorem C6_append_requires_topic_success (message_id : Int) (rawText : String)
    (table : List ImgRow) (uOk wOk : Bool) (cRes : Option Int) (tid : Int)
    (hid : ∀ r ∈ table, ¬ r.id = toString message_id)
    (hex : (check_topic_exist (pyLower rawText) table).1 = false) :
    (handle_image_has_text ⟨uOk, some tid, cRes, wOk⟩ message_id rawText table).1
      = table ++ [⟨toString message_id, pyLower rawText,
                   toString output_chat_id_const, toString tid, pyLower rawText,
                   (cRes.map toString).getD ""⟩] ∧
    (handle_image_has_text ⟨uOk, none, cRes, wOk⟩ message_id rawText table).1
      = table := by
  have hnone := check_image_by_message_id_eq_none message_id table hid
  rcases cRes with _ | c <;>
    exact ⟨by simp [handle_image_has_text, hnone, hex],
           by simp [handle_image_has_text, hnone, hex]⟩

/-- Removing the element sitting right behind a front block of length
`n` is exactly dropping it. -/
theorem eraseIdx_append_cons {α : Type} (l1 : List α) (a : α) (l2 : List α) :
    (l1 ++ a :: l2).eraseIdx l1.length = l1 ++ l2 := by
  induction l1 with
  | nil => rfl
  | cons x xs ih => simp [List.eraseIdx, ih]

/-- Taking one more element appends the element found at the cut. -/
theorem take_succ_of_getElem {α : Type} (l : List α) (i : Nat) (d : α)
    (h : l[i]? = some d) : l.take (i + 1) = l.take i ++ [d] := by
  induction l generalizing i with
  | nil => simp at h
  | cons x xs ih =>
    cases i with
    | zero => simp_all
    | succ j =>
      simp only [List.getElem?_cons_succ] at h
      simp [List.take_succ_cons, ih j h]

/-- Invariant of the reverse-index deletion loop: if the live sheet
consists of the first `i` snapshot rows followed by an already-processed
tail, running the remaining iterations deletes from that front block
exactly the rows whose key matches the prefix, counting and labelling
them in descending-index order. -/
theorem delete_outputs_aux_spec (data : List OutRow) (pre : String) :
    ∀ (i : Nat), i ≤ data.length → ∀ (rest : List OutRow),
      delete_outputs_aux data pre i (data.take i ++ rest) =
        ((data.take i).filter (fun r => !(r.1.startsWith pre)) ++ rest,
         ((data.take i).filter (fun r => r.1.startsWith pre)).length,
         (((data.take i).filter (fun r => r.1.startsWith pre)).map
             (fun r => r.2)).reverse) := by
  intro i
  induction i with
  | zero => intro _ rest; simp [delete_outputs_aux]
  | succ j ih =>
    intro hij rest
    have hj : j < data.length := Nat.lt_of_succ_le hij
    have hd : data[j]? = some data[j] := List.getElem?_eq_getElem hj
    have htake : data.take (j + 1) = data.take j ++ [data[j]] :=
      take_succ_of_getElem data j data[j] hd
    have hlen : (data.take j).length = j := by
      rw [List.length_take]
      exact Nat.min_eq_left (Nat.le_of_lt hj)
    rw [htake, List.append_assoc]
    simp only [List.singleton_append, delete_outputs_aux, hd]
    cases hs : (data[j]).1.startsWith pre with
    | false =>
      have := ih (Nat.le_of_lt hj) ((data[j]) :: rest)
      simp only [hs, Bool.false_eq_true, if_false, this, htake,
                 List.filter_append]
      simp [hs]
    | true =>
      have herase : (data.take j ++ (data[j]) :: rest).eraseIdx j =
          data.take j ++ rest := by
        have h := eraseIdx_append_cons (data.take j) (data[j]) rest
        rwa [hlen] at h
      have := ih (Nat.le_of_lt hj) rest
      simp only [hs, if_true, herase, this, htake, List.filter_append]
      simp [hs]

/-- The cascade equals a pure filter: `delete_outputs_by_image_id`
removes exactly the rows keyed with the image prefix, and returns their
count and their labels (in reverse row order, the loop's deletion
order). -/
theorem delete_outputs_by_image_id_spec (image_id : String)
    (sheet : List OutRow) :
    delete_outputs_by_image_id image_id sheet =
      (sheet.filter (fun r => !(r.1.startsWith (image_id ++ "_"))),
       (sheet.filter (fun r => r.1.startsWith (image_id ++ "_"))).length,
       ((sheet.filter (fun r => r.1.startsWith (image_id ++ "_"))).map
           (fun r => r.2)).reverse) := by
  have h := delete_outputs_aux_spec sheet (image_id ++ "_") sheet.length
    (Nat.le_refl _) []
  simpa [delete_outputs_by_image_id, List.take_length] using h

/-- Under unique assetIds, deleting by message id removes exactly the
matching row. -/
theorem delete_image_by_message_id_nodup (m : Int) (l : List ImgRow)
    (hnd : (l.map ImgRow.id).Nodup) (hmem : ∃ r ∈ l, r.id = toString m) :
    (delete_image_by_message_id m l).1 =
      l.filter (fun r => !(r.id == toString m)) ∧
    (delete_image_by_message_id m l).2.1 = true := by
  induction l with
  | nil => simp at hmem
  | cons r rest ih =>
    rw [List.map_cons, List.nodup_cons] at hnd
    by_cases hr : r.id = toString m
    · have hforall : ∀ x ∈ rest, ¬ x.id = toString m := by
        intro x hx he
        exact hnd.1 (by rw [← hr] at he; exact he ▸ List.mem_map_of_mem ImgRow.id hx)
      have hrest : rest.filter (fun x => !(x.id == toString m)) = rest := by
        rw [List.filter_eq_self]
        intro x hx
        simp [hforall x hx]
      simp [delete_image_by_message_id, hr, hrest]
    · have hmem' : ∃ x ∈ rest, x.id = toString m := by
        obtain ⟨x, hx, hxe⟩ := hmem
        rcases List.mem_cons.mp hx with he | hxr
        · exact absurd (he ▸ hxe) hr
        · exact ⟨x, hxr, hxe⟩
      obtain ⟨ih1, ih2⟩ := ih hnd.2 hmem'
      simp [delete_image_by_message_id, hr, ih1, ih2]

/-- C2: deleting an image id removes exactly its `list_image` row (under
the ledger invariant of unique assetIds), leaves `list_video` untouched,
and the cascade — scanning the single outputs snapshot in reverse row
order — removes exactly the `list_output` rows whose key starts with
`id + "_"`, returning their count and labels. -/
theorem C2_image_deletion_cascade_exact (m : Int) (imgs : List ImgRow)
    (vids : List VidRow) (outs : List OutRow)
    (hnd : (imgs.map ImgRow.id).Nodup)
    (hmem : ∃ r ∈ imgs, r.id = toString m) :
    handle_message_deleted [m] ⟨imgs, vids, outs⟩ =
      (⟨imgs.filter (fun r => !(r.id == toString m)), vids,
        outs.filter (fun r => !(r.1.startsWith (toString m ++ "_")))⟩, 1) ∧
    delete_outputs_by_image_id (toString m) outs =
      (outs.filter (fun r => !(r.1.startsWith (toString m ++ "_"))),
       (outs.filter (fun r => r.1.startsWith (toString m ++ "_"))).length,
       ((outs.filter (fun r => r.1.startsWith (toString m ++ "_"))).map
           (fun r => r.2)).reverse) := by
  obtain ⟨h1, h2⟩ := delete_image_by_message_id_nodup m imgs hnd hmem
  refine ⟨?_, delete_outputs_by_image_id_spec _ _⟩
  simp [handle_message_deleted, h1, h2, delete_outputs_by_image_id_spec]

/-- C2 witness: deleting image id 7 removes its row and both of its
outputs while the unrelated image and output rows survive. -/
theorem C2_image_deletion_cascade_exact_witness :
    handle_message_deleted [7] ⟨c2imgs, [("1", "v1")], c2outs⟩ =
      (⟨c2imgs.filter (fun r => !(r.id == toString (7 : Int))), [("1", "v1")],
        c2outs.filter
          (fun r => !(r.1.startsWith (toString (7 : Int) ++ "_")))⟩, 1) ∧
    delete_outputs_by_image_id (toString (7 : Int)) c2outs =
      (c2outs.filter (fun r => !(r.1.startsWith (toString (7 : Int) ++ "_"))),
       (c2outs.filter
           (fun r => r.1.startsWith (toString (7 : Int) ++ "_"))).length,
       ((c2outs.filter
           (fun r => r.1.startsWith (toString (7 : Int) ++ "_"))).map
           (fun r => r.2)).reverse) :=
  C2_image_deletion_cascade_exact 7 c2imgs [("1", "v1")] c2outs
    (by decide) (by decide)

/-- A row with the looked-up key makes `check_output_exist` succeed. -/
theorem check_output_exist_fst_true_of_mem (key : String) (l : List OutRow)
    (row : OutRow) (hrow : row ∈ l) (hkey : row.1 = key) :
    (check_output_exist key l).1 = true := by
  induction l with
  | nil => simp at hrow
  | cons x rest ih =>
    rcases List.mem_cons.mp hrow with he | hr
    · subst he; simp [check_output_exist, hkey]
    · by_cases hx : x.1 = key
      · simp [check_output_exist, hx]
      · simp [check_output_exist, hx, ih hr]

/-- A successful `check_output_exist` exhibits a row with the key. -/
theorem check_output_exist_mem_of_fst_true (key : String) (l : List OutRow)
    (h : (check_output_exist key l).1 = true) : ∃ row ∈ l, row.1 = key := by
  induction l with
  | nil => simp [check_output_exist] at h
  | cons x rest ih =>
    by_cases hx : x.1 = key
    · exact ⟨x, by simp, hx⟩
    · simp only [check_output_exist, hx] at h
      rw [if_neg (by simpa using hx)] at h
      obtain ⟨row, hr, hk⟩ := ih h
      exact ⟨row, by simp [hr], hk⟩

/-- Step lemma: a combination whose key sits in the snapshot is skipped. -/
theorem runCombos_cons_skip (imgs : List ImgRow) (vids : List VidRow)
    (snap : List OutRow) (ok : String → Bool) (a b : String) (ia ib : String)
    (rest : List (String × String)) (st : BatchState)
    (h1 : image_map_lookup imgs a = some ia)
    (h2 : video_map_lookup vids b = some ib)
    (hc : (check_output_exist (ia ++ "_" ++ ib) snap).1 = true) :
    runCombos imgs vids snap ok ((a, b) :: rest) st =
      runCombos imgs vids snap ok rest { st with skip := st.skip + 1 } := by
  simp [runCombos, h1, h2, hc]

/-- Step lemma: a fresh combination whose external work succeeds appends
its output record and counts a success and a render. -/
theorem runCombos_cons_success (imgs : List ImgRow) (vids : List VidRow)
    (snap : List OutRow) (ok : String → Bool) (a b : String) (ia ib : String)
    (rest : List (String × String)) (st : BatchState)
    (h1 : image_map_lookup imgs a = some ia)
    (h2 : video_map_lookup vids b = some ib)
    (hc : (check_output_exist (ia ++ "_" ++ ib) snap).1 = false)
    (hok : ok (a ++ "_" ++ b) = true) :
    runCombos imgs vids snap ok ((a, b) :: rest) st =
      runCombos imgs vids snap ok rest
        { st with outputs := st.outputs ++ [(ia ++ "_" ++ ib, a ++ "_" ++ b)],
                  success := st.success + 1,
                  renders := st.renders + 1 } := by
  simp [runCombos, h1, h2, hc, hok]

/-- Step lemma: a fresh combination whose external work raises is caught
by the per-combination `except` and recorded in the failure list. -/
theorem runCombos_cons_fail (imgs : List ImgRow) (vids : List VidRow)
    (snap : List OutRow) (ok : String → Bool) (a b : String) (ia ib : String)
    (rest : List (String × String)) (st : BatchState)
    (h1 : image_map_lookup imgs a = some ia)
    (h2 : video_map_lookup vids b = some ib)
    (hc : (check_output_exist (ia ++ "_" ++ ib) snap).1 = false)
    (hok : ok (a ++ "_" ++ b) = false) :
    runCombos imgs vids snap ok ((a, b) :: rest) st =
      runCombos imgs vids snap ok rest
        { st with failList := st.failList ++ [a ++ "_" ++ b],
                  renders := st.renders + 1 } := by
  simp [runCombos, h1, h2, hc, hok]

/-- Step lemma: a missing image name raises `KeyError` before the `try`
and aborts the whole loop. -/
theorem runCombos_cons_abort_img (imgs : List ImgRow) (vids : List VidRow)
    (snap : List OutRow) (ok : String → Bool) (a b : String)
    (rest : List (String × String)) (st : BatchState)
    (h1 : image_map_lookup imgs a = none) :
    runCombos imgs vids snap ok ((a, b) :: rest) st =
      { st with aborted := some (a ++ "_" ++ b) } := by
  simp [runCombos, h1]

/-- Step lemma: a missing video name likewise aborts the whole loop. -/
theorem runCombos_cons_abort_vid (imgs : List ImgRow) (vids : List VidRow)
    (snap : List OutRow) (ok : String → Bool) (a b : String) (ia : String)
    (rest : List (String × String)) (st : BatchState)
    (h1 : image_map_lookup imgs a = some ia)
    (h2 : video_map_lookup vids b = none) :
    runCombos imgs vids snap ok ((a, b) :: rest) st =
      { st with aborted := some (a ++ "_" ++ b) } := by
  simp [runCombos, h1, h2]

/-- The live outputs table only ever grows during a batch run. -/
theorem runCombos_outputs_extends (imgs : List ImgRow) (vids : List VidRow)
    (snap : List OutRow) (ok : String → Bool) :
    ∀ (combos : List (String × String)) (st : BatchState),
      ∃ ext, (runCombos imgs vids snap ok combos st).outputs =
        st.outputs ++ ext := by
  intro combos
  induction combos with
  | nil => intro st; exact ⟨[], by simp [runCombos]⟩
  | cons q rest ih =>
    intro st
    obtain ⟨a, b⟩ := q
    cases h1 : image_map_lookup imgs a with
    | none => exact ⟨[], by simp [runCombos_cons_abort_img _ _ _ _ _ _ _ _ h1]⟩
    | some ia =>
      cases h2 : video_map_lookup vids b with
      | none =>
        exact ⟨[], by simp [runCombos_cons_abort_vid _ _ _ _ _ _ _ _ _ h1 h2]⟩
      | some ib =>
        cases hc : (check_output_exist (ia ++ "_" ++ ib) snap).1 with
        | true =>
          obtain ⟨ext, he⟩ := ih { st with skip := st.skip + 1 }
          exact ⟨ext, by
            rw [runCombos_cons_skip _ _ _ _ _ _ _ _ _ _ h1 h2 hc]; exact he⟩
        | false =>
          cases hok : ok (a ++ "_" ++ b) with
          | true =>
            obtain ⟨ext, he⟩ := ih
              { st with
                  outputs := st.outputs ++ [(ia ++ "_" ++ ib, a ++ "_" ++ b)],
                  success := st.success + 1, renders := st.renders + 1 }
            refine ⟨(ia ++ "_" ++ ib, a ++ "_" ++ b) :: ext, ?_⟩
            rw [runCombos_cons_success _ _ _ _ _ _ _ _ _ _ h1 h2 hc hok, he]
            simp
          | false =>
            obtain ⟨ext, he⟩ := ih
              { st with failList := st.failList ++ [a ++ "_" ++ b],
                        renders := st.renders + 1 }
            exact ⟨ext, by
              rw [runCombos_cons_fail _ _ _ _ _ _ _ _ _ _ h1 h2 hc hok]
              exact he⟩

/-- The failure list only ever grows during a batch run. -/
theorem runCombos_failList_extends (imgs : List ImgRow) (vids : List VidRow)
    (snap : List OutRow) (ok : String → Bool) :
    ∀ (combos : List (String × String)) (st : BatchState),
      ∃ ext, (runCombos imgs vids snap ok combos st).failList =
        st.failList ++ ext := by
  intro combos
  induction combos with
  | nil => intro st; exact ⟨[], by simp [runCombos]⟩
  | cons q rest ih =>
    intro st
    obtain ⟨a, b⟩ := q
    cases h1 : image_map_lookup imgs a with
    | none => exact ⟨[], by simp [runCombos_cons_abort_img _ _ _ _ _ _ _ _ h1]⟩
    | some ia =>
      cases h2 : video_map_lookup vids b with
      | none =>
        exact ⟨[], by simp [runCombos_cons_abort_vid _ _ _ _ _ _ _ _ _ h1 h2]⟩
      | some ib =>
        cases hc : (check_output_exist (ia ++ "_" ++ ib) snap).1 with
        | true =>
          obtain ⟨ext, he⟩ := ih { st with skip := st.skip + 1 }
          exact ⟨ext, by
            rw [runCombos_cons_skip _ _ _ _ _ _ _ _ _ _ h1 h2 hc]; exact he⟩
        | false =>
          cases hok : ok (a ++ "_" ++ b) with
          | true =>
            obtain ⟨ext, he⟩ := ih
              { st with
                  outputs := st.outputs ++ [(ia ++ "_" ++ ib, a ++ "_" ++ b)],
                  success := st.success + 1, renders := st.renders + 1 }
            exact ⟨ext, by
              rw [runCombos_cons_success _ _ _ _ _ _ _ _ _ _ h1 h2 hc hok]
              exact he⟩
          | false =>
            obtain ⟨ext, he⟩ := ih
              { st with failList := st.failList ++ [a ++ "_" ++ b],
                        renders := st.renders + 1 }
            refine ⟨(a ++ "_" ++ b) :: ext, ?_⟩
            rw [runCombos_cons_fail _ _ _ _ _ _ _ _ _ _ h1 h2 hc hok, he]
            simp

/-- Completeness of a clean first run: if the loop neither aborted on a
lookup nor recorded any failure, then every requested combination has
both lookups succeeding and its output key present in the final outputs
table. -/
theorem runCombos_complete (imgs : List ImgRow) (vids : List VidRow)
    (snap : List OutRow) (ok : String → Bool) :
    ∀ (combos : List (String × String)) (st : BatchState),
      (∀ row ∈ snap, row ∈ st.outputs) →
      (runCombos imgs vids snap ok combos st).aborted = none →
      (runCombos imgs vids snap ok combos st).failList = st.failList →
      ∀ p ∈ combos, ∃ ia ib,
        image_map_lookup imgs p.1 = some ia ∧
        video_map_lookup vids p.2 = some ib ∧
        ∃ row ∈ (runCombos imgs vids snap ok combos st).outputs,
          row.1 = ia ++ "_" ++ ib := by
  intro combos
  induction combos with
  | nil => intro st _ _ _ p hp; simp at hp
  | cons q rest ih =>
    intro st hsnap habort hfail p hp
    obtain ⟨a, b⟩ := q
    cases h1 : image_map_lookup imgs a with
    | none =>
      rw [runCombos_cons_abort_img _ _ _ _ _ _ _ _ h1] at habort
      simp at habort
    | some ia =>
      cases h2 : video_map_lookup vids b with
      | none =>
        rw [runCombos_cons_abort_vid _ _ _ _ _ _ _ _ _ h1 h2] at habort
        simp at habort
      | some ib =>
        cases hc : (check_output_exist (ia ++ "_" ++ ib) snap).1 with
        | true =>
          rw [runCombos_cons_skip _ _ _ _ _ _ _ _ _ _ h1 h2 hc]
            at habort hfail ⊢
          rcases List.mem_cons.mp hp with he | hr
          · refine he ▸ ⟨ia, ib, h1, h2, ?_⟩
            obtain ⟨row, hrow, hkey⟩ :=
              check_output_exist_mem_of_fst_true _ _ hc
            obtain ⟨ext, hext⟩ := runCombos_outputs_extends imgs vids snap ok
              rest { st with skip := st.skip + 1 }
            exact ⟨row, by rw [hext]
                           exact List.mem_append_left _ (hsnap row hrow), hkey⟩
          · exact ih { st with skip := st.skip + 1 } hsnap habort hfail p hr
        | false =>
          cases hok : ok (a ++ "_" ++ b) with
          | true =>
            rw [runCombos_cons_success _ _ _ _ _ _ _ _ _ _ h1 h2 hc hok]
              at habort hfail ⊢
            have hsnap' : ∀ row ∈ snap,
                row ∈ st.outputs ++ [(ia ++ "_" ++ ib, a ++ "_" ++ b)] :=
              fun row hrow => List.mem_append_left _ (hsnap row hrow)
            rcases List.mem_cons.mp hp with he | hr
            · refine he ▸ ⟨ia, ib, h1, h2, ?_⟩
              obtain ⟨ext, hext⟩ := runCombos_outputs_extends imgs vids snap ok
                rest { st with
                         outputs := st.outputs ++
                           [(ia ++ "_" ++ ib, a ++ "_" ++ b)],
                         success := st.success + 1, renders := st.renders + 1 }
              refine ⟨(ia ++ "_" ++ ib, a ++ "_" ++ b), ?_, rfl⟩
              rw [hext]
              exact List.mem_append_left _
                (List.mem_append_right _ (by simp))
            · exact ih _ hsnap' habort hfail p hr
          | false =>
            rw [runCombos_cons_fail _ _ _ _ _ _ _ _ _ _ h1 h2 hc hok] at hfail
            obtain ⟨ext, hext⟩ := runCombos_failList_extends imgs vids snap ok
              rest { st with failList := st.failList ++ [a ++ "_" ++ b],
                             renders := st.renders + 1 }
            rw [hext] at hfail
            have hlen := congrArg List.length hfail
            simp at hlen

/-- If every requested combination's key is already in the snapshot, the
run only counts skips and changes nothing else. -/
theorem runCombos_all_skip (imgs : List ImgRow) (vids : List VidRow)
    (snap : List OutRow) (ok : String → Bool) :
    ∀ (combos : List (String × String)) (st : BatchState),
      (∀ p ∈ combos, ∃ ia ib,
        image_map_lookup imgs p.1 = some ia ∧
        video_map_lookup vids p.2 = some ib ∧
        (check_output_exist (ia ++ "_" ++ ib) snap).1 = true) →
      runCombos imgs vids snap ok combos st =
        { st with skip := st.skip + combos.length } := by
  intro combos
  induction combos with
  | nil => intro st _; rfl
  | cons q rest ih =>
    intro st h
    obtain ⟨a, b⟩ := q
    obtain ⟨ia, ib, h1, h2, hc⟩ := h (a, b) (by simp)
    rw [runCombos_cons_skip _ _ _ _ _ _ _ _ _ _ h1 h2 hc,
        ih _ (fun p hp => h p (by simp [hp]))]
    have harith : st.skip + 1 + rest.length = st.skip + ((a, b) :: rest).length
        := by rw [List.length_cons]; omega
    rw [harith]

/-- C3: a second batch run over the same image and video name lists,
started right after a first run that completed without a lookup abort
and with an empty failure list, renders nothing: every combination is
skipped by the existence check against the freshly read outputs table,
no record is appended, and no failure occurs. -/
theorem C3_second_batch_run_renders_nothing (imgs : List ImgRow)
    (vids : List VidRow) (imageNames videoNames : List String)
    (outs : List OutRow) (ok1 ok2 : String → Bool)
    (h1 : (domany imgs vids imageNames videoNames outs ok1).aborted = none)
    (h2 : (domany imgs vids imageNames videoNames outs ok1).failList = []) :
    domany imgs vids imageNames videoNames
        (domany imgs vids imageNames videoNames outs ok1).outputs ok2 =
      ⟨(domany imgs vids imageNames videoNames outs ok1).outputs, 0,
       (comboList imageNames videoNames).length, 0, [], none⟩ := by
  have hcover := runCombos_complete imgs vids outs ok1
    (comboList imageNames videoNames) ⟨outs, 0, 0, 0, [], none⟩
    (fun row hr => hr) h1 h2
  have hskip : ∀ p ∈ comboList imageNames videoNames, ∃ ia ib,
      image_map_lookup imgs p.1 = some ia ∧
      video_map_lookup vids p.2 = some ib ∧
      (check_output_exist (ia ++ "_" ++ ib)
        (domany imgs vids imageNames videoNames outs ok1).outputs).1 = true := by
    intro p hp
    obtain ⟨ia, ib, hia, hib, row, hrow, hkey⟩ := hcover p hp
    exact ⟨ia, ib, hia, hib,
      check_output_exist_fst_true_of_mem _ _ row hrow hkey⟩
  have hrun2 := runCombos_all_skip imgs vids
    (domany imgs vids imageNames videoNames outs ok1).outputs ok2
    (comboList imageNames videoNames)
    ⟨(domany imgs vids imageNames videoNames outs ok1).outputs,
     0, 0, 0, [], none⟩ hskip
  simpa using hrun2

/-- C3 witness: two consecutive identical batch runs over one image and
one video; the second run only skips. -/
theorem C3_second_batch_run_renders_nothing_witness :
    domany [sampleImgRow] [("2", "v")] ["a"] ["v"]
        (domany [sampleImgRow] [("2", "v")] ["a"] ["v"] []
          (fun _ => true)).outputs (fun _ => true) =
      ⟨(domany [sampleImgRow] [("2", "v")] ["a"] ["v"] []
          (fun _ => true)).outputs, 0,
       (comboList ["a"] ["v"]).length, 0, [], none⟩ :=
  C3_second_batch_run_renders_nothing [sampleImgRow] [("2", "v")] ["a"] ["v"]
    [] (fun _ => true) (fun _ => true) (by decide) (by decide)

/-- C6 witness: with the topic created as id 42 and the channel failed,
the appended row carries the empty channel id; with the topic failed,
nothing is appended. -/
theorem C6_append_requires_topic_success_witness :
    (handle_image_has_text ⟨true, some 42, none, true⟩ 1 "newface" []).1
      = [] ++ [⟨toString (1 : Int), pyLower "newface",
                toString output_chat_id_const, toString (42 : Int),
                pyLower "newface", ((none : Option Int).map toString).getD ""⟩] ∧
    (handle_image_has_text ⟨true, none, none, true⟩ 1 "newface" []).1 = [] :=
  C6_append_requires_topic_success 1 "newface" [] true true none 42
    (by decide) (by decide)

end TelegramBot
